import Mathlib

/-!
Verification of the low-code multi-agent workflow (deer-flow).

This file is a shallow embedding, in Lean 4, of the coordination logic of the
repository: the shared data model (`src/models/low_code_models.py`,
`src/models/reward_models.py`), the knowledge-manager agent
(`src/agents/knowledge_manager.py`), the developer agent's finalization step
(`src/agents/low_code_developer.py`), and the top-level orchestrator state
machine (`src/graph/low_code_workflow.py`).

Python floats are modelled as exact rationals (`ℚ`), Python `datetime`s as
integer Unix timestamps (`ℤ`), fallible external calls (LLM, vision, browser,
database) as `Except`/`Bool`-valued oracle functions supplied per call, and
the LangGraph conditional-edge graph as an explicit step function on a
configuration `(node, state, tick)`.
-/

/-! ## Data model (`src/models/low_code_models.py`, `src/models/reward_models.py`) -/

/-- `RewardDecision` enum: accepted / rejected / pending. -/
inductive RewardDecision where
  | accepted
  | rejected
  | pending
deriving DecidableEq

/-- The string value of a `RewardDecision`, as `decision.value` in Python. -/
def RewardDecision.value : RewardDecision → String
  | .accepted => "accepted"
  | .rejected => "rejected"
  | .pending => "pending"

/-- `ValidationResult` (fields used by the orchestration logic).
`score` carries the pydantic constraint `ge=0.0, le=1.0`. -/
structure ValidationResult where
  is_valid : Bool
  score : ℚ := 0
  issues : List String := []
deriving DecidableEq

/-- `LowCodeOperation` (fields used by the orchestration logic):
`success: Optional[bool]` and `execution_time: Optional[float]`. -/
structure LowCodeOperation where
  success : Option Bool := none
  execution_time : Option ℚ := none
deriving DecidableEq

/-- `DevelopmentRequest` (fields used by the orchestration logic). -/
structure DevelopmentRequest where
  request_id : String := ""
  title : String := ""
  description : String := ""
  requirements : List String := []
deriving DecidableEq

/-- `ImplementationSolution` (fields used by the orchestration logic).
`description` is `Optional[str]` in the source; `success_rate` carries the
pydantic constraint `ge=0.0, le=1.0`; `created_at` is a Unix timestamp. -/
structure ImplementationSolution where
  solution_id : String := ""
  request_id : String := ""
  title : String := ""
  description : Option String := none
  operations : List LowCodeOperation := []
  validation_result : Option ValidationResult := none
  reward_decision : RewardDecision := .pending
  success_rate : ℚ := 0
  execution_time : ℚ := 0
  created_at : ℤ := 0
deriving DecidableEq

/-- `KnowledgeEntry` usage statistics (`src/models/reward_models.py`):
`usage_count` defaults to 0 and `success_rate` to 0.0 (`ge=0.0, le=1.0`). -/
structure KnowledgeEntry where
  usage_count : ℕ := 0
  success_rate : ℚ := 0
deriving DecidableEq

/-- `RewardTransaction` (fields used by the orchestration logic). -/
structure RewardTransaction where
  solution_id : String := ""
  reward_points : ℤ := 0
  reward_type : String := ""
  reward_reason : String := ""
deriving DecidableEq

/-- `KnowledgeEntry.add_usage(success)`: increments `usage_count`, and updates
the running `success_rate`: on the first use it becomes 1.0 or 0.0; afterwards
the previous successes are recovered as `success_rate * (usage_count - 1)`,
incremented when `success`, and divided by the new `usage_count`. -/
def KnowledgeEntry.add_usage (e : KnowledgeEntry) (success : Bool) : KnowledgeEntry :=
  let usage_count := e.usage_count + 1
  if usage_count = 1 then
    { e with usage_count := usage_count, success_rate := if success then 1 else 0 }
  else
    let current_successes := e.success_rate * ((usage_count : ℚ) - 1)
    let current_successes := if success then current_successes + 1 else current_successes
    { e with usage_count := usage_count, success_rate := current_successes / (usage_count : ℚ) }

/-! ## Knowledge manager (`src/agents/knowledge_manager.py`) -/

/-- Helper embedding Python's `str.split()` (split on whitespace runs,
dropping empty pieces), written structurally over the character list so that
it evaluates inside the kernel. `acc` holds the current word reversed. -/
def splitWhitespaceAux : List Char → List Char → List String
  | [], acc => if acc.isEmpty then [] else [String.mk acc.reverse]
  | c :: cs, acc =>
    if c.isWhitespace then
      if acc.isEmpty then splitWhitespaceAux cs []
      else String.mk acc.reverse :: splitWhitespaceAux cs []
    else splitWhitespaceAux cs (c :: acc)

/-- The word set `set(text.lower().split())` used by `_text_similarity`. -/
def pyWordSet (text : String) : Finset String :=
  (splitWhitespaceAux (text.data.map Char.toLower) []).toFinset

/-- `KnowledgeManagerAgent._text_similarity`: token-set Jaccard similarity
`|words1 ∩ words2| / |words1 ∪ words2|` over lower-cased whitespace-tokenized
word sets, and 0.0 when the union is empty. -/
def text_similarity (text1 text2 : String) : ℚ :=
  let words1 := pyWordSet text1
  let words2 := pyWordSet text2
  let inter := words1 ∩ words2
  let un := words1 ∪ words2
  if un.card = 0 then 0 else (inter.card : ℚ) / (un.card : ℚ)

/-- `KnowledgeManagerAgent._calculate_similarity`:
`(0.6·title_similarity + 0.4·description_similarity) × success_rate`.
When `solution.description` is `None`, `_text_similarity` hits an
`AttributeError` on `None.lower()`, which its own `except` turns into 0.0. -/
def calculate_similarity (request : DevelopmentRequest) (solution : ImplementationSolution) : ℚ :=
  let title_similarity := text_similarity request.title solution.title
  let desc_similarity :=
    match solution.description with
    | some d => text_similarity request.description d
    | none => 0
  (title_similarity * (6/10) + desc_similarity * (4/10)) * solution.success_rate

/-- The ordering used by `_rank_solutions_by_similarity`: candidate `a`
precedes candidate `b` when its similarity score is at least `b`'s. -/
def similarityRel (request : DevelopmentRequest) :
    ImplementationSolution → ImplementationSolution → Prop :=
  fun a b => calculate_similarity request b ≤ calculate_similarity request a

instance (request : DevelopmentRequest) : DecidableRel (similarityRel request) :=
  fun a b =>
    (inferInstance : Decidable (calculate_similarity request b ≤ calculate_similarity request a))

/-- `KnowledgeManagerAgent._rank_solutions_by_similarity`: Python's
`list.sort(key=score, reverse=True)` is a stable descending sort, which is
extensionally the unique stable sort; it is embedded as insertion sort over
`similarityRel` (proved below to be descending-sorted and stable). -/
def rank_solutions_by_similarity (request : DevelopmentRequest)
    (solutions : List ImplementationSolution) : List ImplementationSolution :=
  List.insertionSort (similarityRel request) solutions

instance (request : DevelopmentRequest) :
    IsTotal ImplementationSolution (similarityRel request) :=
  ⟨fun a b => le_total (calculate_similarity request b) (calculate_similarity request a)⟩

instance (request : DevelopmentRequest) :
    IsTrans ImplementationSolution (similarityRel request) :=
  ⟨fun _ _ _ hab hbc => le_trans hbc hab⟩

/-- `KnowledgeManagerAgent._handle_accepted_solution`: nudges `success_rate`
up by 0.1, capped at 1.0. (The derived knowledge entry is produced through
the Completion port and is not needed here.) -/
def handle_accepted_solution (solution : ImplementationSolution) : ImplementationSolution :=
  { solution with success_rate := min 1 (solution.success_rate + 1/10) }

/-- `KnowledgeManagerAgent._handle_rejected_solution`: nudges `success_rate`
down by 0.1, floored at 0.0, and appends a rejection note to the validation
issues when a validation result exists. -/
def handle_rejected_solution (solution : ImplementationSolution) : ImplementationSolution :=
  let solution := { solution with success_rate := max 0 (solution.success_rate - 1/10) }
  match solution.validation_result with
  | some vr =>
      { solution with validation_result := some { vr with issues := vr.issues ++ ["方案被用户拒绝"] } }
  | none => solution

/-- `KnowledgeManagerAgent._record_reward_transaction`: builds the ledger
entry; points are +100 for accepted, −50 for rejected, 0 otherwise. -/
def record_reward_transaction (solution : ImplementationSolution)
    (decision : RewardDecision) : RewardTransaction :=
  let transaction : RewardTransaction :=
    { solution_id := solution.solution_id
      reward_type := decision.value
      reward_reason := "方案" ++ decision.value }
  match decision with
  | .accepted => { transaction with reward_points := 100 }
  | .rejected => { transaction with reward_points := -50 }
  | .pending => { transaction with reward_points := 0 }

/-- `KnowledgeManagerAgent.store_solution(solution, reward_decision)`: sets
the decision on the solution, dispatches to the accepted/rejected/pending
handler, writes the solution through the Store port and records a
`RewardTransaction`. The returned pair is the mutated solution and the
recorded transaction. -/
def store_solution (solution : ImplementationSolution) (reward_decision : RewardDecision) :
    ImplementationSolution × RewardTransaction :=
  let solution := { solution with reward_decision := reward_decision }
  let solution :=
    match reward_decision with
    | .accepted => handle_accepted_solution solution
    | .rejected => handle_rejected_solution solution
    | .pending => solution
  (solution, record_reward_transaction solution reward_decision)

/-- The methods actually defined on `KnowledgeStore`
(`src/database/knowledge_store.py`). Python attribute lookup on any other
name raises `AttributeError`. -/
def knowledgeStoreMethods : List String :=
  ["initialize", "store_solution", "get_solution", "search_solutions",
   "store_knowledge_entry", "get_knowledge_entries", "store_evaluation",
   "store_version", "store_reward_transaction", "get_reward_criteria"]

/-- Modelled from the spec: `KnowledgeStore.get_solutions_before_date` is
called by `cleanup_old_solutions` but implemented nowhere in the repository.
The spec describes the cleanup as acting on solutions "older than the
cutoff", so the missing store method is modelled as the creation-date filter. -/
def get_solutions_before_date (store : List ImplementationSolution) (cutoff : ℤ) :
    List ImplementationSolution :=
  store.filter (fun s => s.created_at < cutoff)

/-- Modelled from the spec: `KnowledgeStore.delete_solution` is called by
`cleanup_old_solutions` but implemented nowhere in the repository; modelled
as removal by solution id. -/
def delete_solution (store : List ImplementationSolution) (solution_id : String) :
    List ImplementationSolution :=
  store.filter (fun s => s.solution_id ≠ solution_id)

/-- The intended body of `cleanup_old_solutions`: fetch solutions created
before `now − retention_days`, and delete exactly the rejected ones among
them, counting the deletions. -/
def cleanup_intended (store : List ImplementationSolution) (now : ℤ) (retention_days : ℤ) :
    ℕ × List ImplementationSolution :=
  let cutoff := now - retention_days * 86400
  let old_solutions := get_solutions_before_date store cutoff
  let deleted := old_solutions.filter (fun s => s.reward_decision = .rejected)
  (deleted.length, deleted.foldl (fun st s => delete_solution st s.solution_id) store)

/-- `KnowledgeManagerAgent.cleanup_old_solutions(retention_days)`: the whole
body sits in a `try/except` that returns 0 on any exception. The body's first
store call is the attribute access `self.knowledge_store.get_solutions_before_date`,
which raises `AttributeError` because no such method exists on
`KnowledgeStore` (see `knowledgeStoreMethods`); the attribute lookups are
modelled explicitly, so the `except` path (count 0, store untouched) is the
branch the code actually takes. -/
def cleanup_old_solutions (store : List ImplementationSolution) (now : ℤ)
    (retention_days : ℤ) : ℕ × List ImplementationSolution :=
  if "get_solutions_before_date" ∈ knowledgeStoreMethods ∧
      "delete_solution" ∈ knowledgeStoreMethods then
    cleanup_intended store now retention_days
  else
    (0, store)

/-! ## Developer agent finalization (`src/agents/low_code_developer.py`) -/

/-- `LowCodeDeveloperAgent._finalize_solution`: recomputes `success_rate` as
(operations with `success is True`) / (total operations), or 0.0 with no
operations; sets the reward decision (accepted when the validation result is
present, valid and `success_rate ≥ 0.8`; pending when valid below that;
rejected otherwise); sums `execution_time or 0` over the operations. -/
def finalize_solution (solution : ImplementationSolution) : ImplementationSolution :=
  let successful_operations :=
    (solution.operations.filter (fun op => op.success = some true)).length
  let total_operations := solution.operations.length
  let success_rate : ℚ :=
    if 0 < total_operations then (successful_operations : ℚ) / (total_operations : ℚ) else 0
  let reward_decision :=
    match solution.validation_result with
    | some vr =>
        if vr.is_valid then
          if 8/10 ≤ success_rate then RewardDecision.accepted else RewardDecision.pending
        else RewardDecision.rejected
    | none => RewardDecision.rejected
  let total_time := (solution.operations.map (fun op => op.execution_time.getD 0)).sum
  { solution with
      success_rate := success_rate
      reward_decision := reward_decision
      execution_time := total_time }

/-! ## Top-level orchestrator (`src/graph/low_code_workflow.py`) -/

/-- `WorkflowStage` enum. -/
inductive WorkflowStage where
  | initialization
  | knowledge_search
  | development
  | validation
  | review
  | knowledge_update
  | completion
deriving DecidableEq

/-- The nodes of the compiled LangGraph graph, plus the `END` sentinel
(`terminal`). `initialization` is the node named "initialize" in the source
and `finalization` the node named "finalize". -/
inductive Node where
  | initialization
  | search_knowledge
  | develop_solution
  | validate_solution
  | review_solution
  | update_knowledge
  | finalization
  | handle_error
  | terminal
deriving DecidableEq

/-- `LowCodeWorkflowState` with its field defaults (`max_iterations = 3`,
`human_in_loop = True`, `auto_accept_threshold = 0.9`). -/
structure LowCodeWorkflowState where
  request : Option DevelopmentRequest := none
  current_stage : WorkflowStage := .initialization
  iteration_count : ℕ := 0
  max_iterations : ℕ := 3
  similar_solutions : List ImplementationSolution := []
  current_solution : Option ImplementationSolution := none
  validation_result : Option ValidationResult := none
  reward_decision : RewardDecision := .pending
  human_in_loop : Bool := true
  auto_accept_threshold : ℚ := 9/10
  errors : List String := []
  warnings : List String := []
  final_solution : Option ImplementationSolution := none
  workflow_completed : Bool := false
  success : Bool := false
deriving DecidableEq

/-- One behavior of the external collaborators: the outcome of each external
call, indexed by the step at which it is made. An `Except.error` outcome is
the call raising an exception. The knowledge-manager store call returns a
`Bool` because `store_solution` catches its own failures and returns
`False`. -/
structure PortBehavior where
  searchPort : ℕ → Except String (List ImplementationSolution)
  developPort : ℕ → Except String ImplementationSolution
  validatePort : ℕ → Except String ValidationResult
  storePort : ℕ → Bool

/-- `LowCodeWorkflow._initialize`: records an error when the request is
absent; otherwise leaves the state unchanged (up to the stage marker). -/
def init_node (s : LowCodeWorkflowState) : LowCodeWorkflowState :=
  let s := { s with current_stage := .initialization }
  match s.request with
  | none => { s with errors := s.errors ++ ["缺少开发请求"] }
  | some _ => s

/-- `KnowledgeManagerAgent.search_similar_solutions`: its own `try/except`
returns the empty list on any failure of the underlying ports. -/
def search_similar_solutions (outcome : Except String (List ImplementationSolution)) :
    List ImplementationSolution :=
  match outcome with
  | .ok solutions => solutions
  | .error _ => []

/-- `LowCodeWorkflow._search_knowledge`: stores the (possibly empty) search
result and, when non-empty, appends an informational warning. -/
def search_knowledge_node (outcome : Except String (List ImplementationSolution))
    (s : LowCodeWorkflowState) : LowCodeWorkflowState :=
  let s := { s with current_stage := .knowledge_search }
  let similar_solutions := search_similar_solutions outcome
  let s := { s with similar_solutions := similar_solutions }
  if similar_solutions.isEmpty then s
  else
    { s with warnings :=
        s.warnings ++ ["找到" ++ toString similar_solutions.length ++ "个相似方案，可参考复用"] }

/-- `LowCodeWorkflow._develop_solution`: increments the iteration counter,
invokes the developer agent, and records an error when the call raises or
the produced solution has no operations. -/
def develop_solution_node (outcome : Except String ImplementationSolution)
    (s : LowCodeWorkflowState) : LowCodeWorkflowState :=
  let s := { s with current_stage := .development, iteration_count := s.iteration_count + 1 }
  match outcome with
  | .error e => { s with errors := s.errors ++ ["开发方案失败: " ++ e] }
  | .ok solution =>
    let s := { s with current_solution := some solution }
    if solution.operations.isEmpty then { s with errors := s.errors ++ ["方案开发失败"] }
    else s

/-- `LowCodeWorkflow._validate_solution`: records an error when there is no
solution or the validator call raises; otherwise stores the validation
result in the state and in the solution. -/
def validate_solution_node (outcome : Except String ValidationResult)
    (s : LowCodeWorkflowState) : LowCodeWorkflowState :=
  let s := { s with current_stage := .validation }
  match s.current_solution with
  | none => { s with errors := s.errors ++ ["没有可验证的方案"] }
  | some solution =>
    match outcome with
    | .error e => { s with errors := s.errors ++ ["验证方案失败: " ++ e] }
    | .ok vr =>
        { s with
            validation_result := some vr
            current_solution := some { solution with validation_result := some vr } }

/-- The decision chain of `LowCodeWorkflow._review_solution`: accept a valid
result at or above the auto-accept threshold; a valid result at or above 0.7
is pending under human-in-the-loop and accepted otherwise; anything else is
pending while iterations remain and rejected once they are exhausted. -/
def review_decision (vr : ValidationResult) (iteration_count max_iterations : ℕ)
    (human_in_loop : Bool) (auto_accept_threshold : ℚ) : RewardDecision :=
  if vr.is_valid = true ∧ auto_accept_threshold ≤ vr.score then .accepted
  else if vr.is_valid = true ∧ 7/10 ≤ vr.score then
    if human_in_loop then .pending else .accepted
  else if iteration_count < max_iterations then .pending
  else .rejected

/-- `LowCodeWorkflow._review_solution`: records an error when the solution or
validation result is missing; otherwise sets the reward decision following
`review_decision`. -/
def review_solution_node (s : LowCodeWorkflowState) : LowCodeWorkflowState :=
  let s := { s with current_stage := .review }
  match s.current_solution, s.validation_result with
  | some _, some vr =>
      let d := review_decision vr s.iteration_count s.max_iterations s.human_in_loop
        s.auto_accept_threshold
      { s with reward_decision := d }
  | _, _ => { s with errors := s.errors ++ ["缺少方案或验证结果"] }

/-- `LowCodeWorkflow._update_knowledge`: stores the solution (the solution
object is mutated in place by `store_solution` even when the database write
fails afterwards); a failed store is recorded as a warning only. -/
def update_knowledge_node (storeOk : Bool) (s : LowCodeWorkflowState) : LowCodeWorkflowState :=
  let s := { s with current_stage := .knowledge_update }
  match s.current_solution with
  | none => { s with errors := s.errors ++ ["没有可存储的方案"] }
  | some solution =>
    let s := { s with current_solution := some (store_solution solution s.reward_decision).1 }
    if storeOk then s else { s with warnings := s.warnings ++ ["知识库更新失败"] }

/-- `LowCodeWorkflow._finalize`: the current solution becomes the final
result when present and not rejected. -/
def finalize_node (s : LowCodeWorkflowState) : LowCodeWorkflowState :=
  let s := { s with current_stage := .completion, workflow_completed := true }
  match s.current_solution with
  | some solution =>
      if s.reward_decision ≠ .rejected then
        { s with final_solution := some solution, success := true }
      else { s with success := false }
  | none => { s with success := false }

/-- `LowCodeWorkflow._handle_error`: marks the run unsuccessful. -/
def handle_error_node (s : LowCodeWorkflowState) : LowCodeWorkflowState :=
  { s with workflow_completed := true, success := false }

/-- The labels returned by `_after_development`. -/
inductive DevRoute where
  | validate
  | error
  | retry
deriving DecidableEq

/-- `LowCodeWorkflow._after_development`. -/
def after_development (s : LowCodeWorkflowState) : DevRoute :=
  if ¬ s.errors.isEmpty then .error
  else
    match s.current_solution with
    | none => if s.iteration_count < s.max_iterations then .retry else .error
    | some solution =>
      if solution.operations.isEmpty then
        if s.iteration_count < s.max_iterations then .retry else .error
      else .validate

/-- The labels returned by `_after_validation`. -/
inductive ValRoute where
  | review
  | retry
  | error
deriving DecidableEq

/-- `LowCodeWorkflow._after_validation`. -/
def after_validation (s : LowCodeWorkflowState) : ValRoute :=
  if ¬ s.errors.isEmpty then .error
  else if s.validation_result = none then .error
  else .review

/-- The labels returned by `_after_review`. -/
inductive ReviewRoute where
  | accept
  | reject
  | pending
deriving DecidableEq

/-- `LowCodeWorkflow._after_review`. -/
def after_review (s : LowCodeWorkflowState) : ReviewRoute :=
  match s.reward_decision with
  | .accepted => .accept
  | .rejected => .reject
  | .pending => .pending

/-- A configuration of the compiled graph: the node about to run, the
workflow state, and the number of steps taken so far (used to index the port
behavior). -/
structure WorkflowConfig where
  node : Node
  state : LowCodeWorkflowState
  tick : ℕ
deriving DecidableEq

/-- One transition of the compiled graph: runs the node the configuration
points at and follows its (conditional) outgoing edge, exactly as wired in
`_build_workflow_graph`. `terminal` (END) is absorbing. -/
def workflow_step (o : PortBehavior) (c : WorkflowConfig) : WorkflowConfig :=
  match c.node with
  | .initialization => ⟨.search_knowledge, init_node c.state, c.tick + 1⟩
  | .search_knowledge =>
      ⟨.develop_solution, search_knowledge_node (o.searchPort c.tick) c.state, c.tick + 1⟩
  | .develop_solution =>
      let s := develop_solution_node (o.developPort c.tick) c.state
      let next :=
        match after_development s with
        | .validate => Node.validate_solution
        | .error => Node.handle_error
        | .retry => Node.develop_solution
      ⟨next, s, c.tick + 1⟩
  | .validate_solution =>
      let s := validate_solution_node (o.validatePort c.tick) c.state
      let next :=
        match after_validation s with
        | .review => Node.review_solution
        | .retry => Node.develop_solution
        | .error => Node.handle_error
      ⟨next, s, c.tick + 1⟩
  | .review_solution =>
      let s := review_solution_node c.state
      let next :=
        match after_review s with
        | .accept => Node.update_knowledge
        | .reject => Node.develop_solution
        | .pending => Node.finalization
      ⟨next, s, c.tick + 1⟩
  | .update_knowledge =>
      ⟨.finalization, update_knowledge_node (o.storePort c.tick) c.state, c.tick + 1⟩
  | .finalization => ⟨.terminal, finalize_node c.state, c.tick + 1⟩
  | .handle_error => ⟨.finalization, handle_error_node c.state, c.tick + 1⟩
  | .terminal => c

/-- Iterated transitions of the compiled graph. -/
def workflow_run (o : PortBehavior) (c : WorkflowConfig) : ℕ → WorkflowConfig
  | 0 => c
  | n + 1 => workflow_run o (workflow_step o c) n

/-- The initial configuration built by `execute`: entry point `initialize`,
state holding the request and the `human_in_loop` flag, all other fields at
their defaults. -/
def initial_config (request : DevelopmentRequest) (human_in_loop : Bool) : WorkflowConfig :=
  ⟨.initialization, { request := some request, human_in_loop := human_in_loop }, 0⟩

/-- `LowCodeDeveloperState.max_errors` default (`src/agents/low_code_developer.py`). -/
def developer_max_errors : ℕ := 5

/-- `FunctionValidatorState.max_errors` default (`src/agents/function_validator.py`). -/
def validator_max_errors : ℕ := 3

/-- `LowCodeWorkflowState.max_iterations` default. -/
def max_iterations_default : ℕ := 3

/-- The transition budget claimed by the spec:
`max_iterations × (max_errors_dev + max_errors_val)` = 3 × (5 + 3) = 24. -/
def workflow_transition_bound : ℕ :=
  max_iterations_default * (developer_max_errors + validator_max_errors)

/-- `LowCodeWorkflow.execute(request, human_in_loop)`: runs the graph and
extracts `final_solution`, else `current_solution`, else a rejected failure
solution; its outer `try/except` turns any residual exception (modelled by
`residual_failure`) into a rejected solution whose description carries the
failure reason — it never re-raises. -/
def execute (o : PortBehavior) (request : DevelopmentRequest) (human_in_loop : Bool)
    (residual_failure : Option String) : ImplementationSolution :=
  match residual_failure with
  | some e =>
      { request_id := request.request_id
        title := "异常方案: " ++ request.title
        description := some ("工作流执行异常: " ++ e)
        operations := []
        reward_decision := .rejected }
  | none =>
      let final :=
        (workflow_run o (initial_config request human_in_loop) workflow_transition_bound).state
      match final.final_solution with
      | some solution => solution
      | none =>
        match final.current_solution with
        | some solution => solution
        | none =>
            { request_id := request.request_id
              title := "失败方案: " ++ request.title
              description := some "工作流执行失败"
              operations := []
              reward_decision := .rejected }

/-! ## Concrete instances used by witnesses and counterexamples -/

/-- A one-operation solution (all operation fields at their defaults). -/
def solWithOp : ImplementationSolution :=
  { title := "示例方案", operations := [{}] }

/-- An invalid validation result with score 0. -/
def vrInvalidLow : ValidationResult := { is_valid := false, score := 0 }

/-- A valid validation result with score 0.75 (below the 0.9 threshold). -/
def vrValidMid : ValidationResult := { is_valid := true, score := 3/4 }

/-- A concrete development request. -/
def reqW : DevelopmentRequest :=
  { request_id := "req-1", title := "库存管理表单", description := "创建库存管理表单" }

/-- A state sitting at the review node: solution present, valid mid score. -/
def stateC1 : LowCodeWorkflowState :=
  { request := some reqW
    current_solution := some solWithOp
    validation_result := some vrValidMid
    iteration_count := 1 }

/-- A state sitting at the review node after a low-quality first iteration:
solution present, invalid validation result, iteration budget not exhausted. -/
def stateC3 : LowCodeWorkflowState :=
  { request := some reqW
    current_solution := some solWithOp
    validation_result := some vrInvalidLow
    iteration_count := 1 }

/-- A port behavior in which every external call fails. -/
def failAllOracle : PortBehavior :=
  { searchPort := fun _ => .error "搜索端口异常"
    developPort := fun _ => .error "开发端口异常"
    validatePort := fun _ => .error "验证端口异常"
    storePort := fun _ => false }

/-- A port behavior in which only the knowledge search fails; development
produces a one-operation solution and validation yields a valid mid score. -/
def searchFailOracle : PortBehavior :=
  { searchPort := fun _ => .error "数据库连接失败"
    developPort := fun _ => .ok solWithOp
    validatePort := fun _ => .ok vrValidMid
    storePort := fun _ => true }

/-- The C4 scenario solution: two operations, both successful, with a valid
validation result scoring 0.85. -/
def solScenarioC4 : ImplementationSolution :=
  { title := "双操作方案"
    operations :=
      [{ success := some true, execution_time := some 2 },
       { success := some true, execution_time := some 3 }]
    validation_result := some { is_valid := true, score := 17/20 } }

/-- The C5 scenario request, titled "Invoice Form". -/
def reqC5 : DevelopmentRequest :=
  { title := "Invoice Form", description := "collect payment data" }

/-- The C5 scenario candidate: titled "Invoice Management Form", description
sharing no token with the request's, success rate 0.5. -/
def solC5 : ImplementationSolution :=
  { title := "Invoice Management Form"
    description := some "manage invoices end to end"
    success_rate := 1/2 }

/-- A solution with success rate 0.5, for the store-solution witness. -/
def solC6 : ImplementationSolution := { solution_id := "sol-c6", success_rate := 1/2 }

/-- A reference "now" (2026-10-12 00:00:00 UTC). -/
def nowC9 : ℤ := 1760227200

/-- A rejected solution created 100 days before `nowC9`. -/
def solRejectedOld : ImplementationSolution :=
  { solution_id := "sol-rejected-100d"
    reward_decision := .rejected
    created_at := nowC9 - 100 * 86400 }

/-- An accepted solution created 200 days before `nowC9`. -/
def solAcceptedOld : ImplementationSolution :=
  { solution_id := "sol-accepted-200d"
    reward_decision := .accepted
    created_at := nowC9 - 200 * 86400 }

/-- A store holding the two aged solutions above. -/
def storeC9 : List ImplementationSolution := [solRejectedOld, solAcceptedOld]

/-- A fresh knowledge entry (usage count 0). -/
def entryC10 : KnowledgeEntry := {}

/-- A concrete usage sequence: success, failure, success. -/
def usageSeqC10 : List Bool := [true, false, true]

/-- The workflow state reached after initialize → search → develop →
validate when the search port failed, development returned `sol` and
validation returned `vr`. -/
def stateAfterValidate (req : DevelopmentRequest) (hil : Bool)
    (sol : ImplementationSolution) (vr : ValidationResult) : LowCodeWorkflowState :=
  { request := some req
    current_stage := .validation
    iteration_count := 1
    current_solution := some { sol with validation_result := some vr }
    validation_result := some vr
    human_in_loop := hil }

/-! ## Runner lemmas -/

/-- Unfolding one transition of the runner. -/
theorem workflow_run_succ (o : PortBehavior) (c : WorkflowConfig) (n : ℕ) :
    workflow_run o c (n + 1) = workflow_run o (workflow_step o c) n := rfl

/-- Splitting a run. -/
theorem workflow_run_add (o : PortBehavior) (c : WorkflowConfig) (m n : ℕ) :
    workflow_run o c (m + n) = workflow_run o (workflow_run o c m) n := by
  induction m generalizing c with
  | zero => rw [Nat.zero_add]; rfl
  | succ m ih =>
      have h : m + 1 + n = (m + n) + 1 := by omega
      rw [h, workflow_run_succ, ih]
      rfl

/-- The `END` node is absorbing. -/
theorem workflow_run_terminal (o : PortBehavior) (s : LowCodeWorkflowState) (t n : ℕ) :
    workflow_run o ⟨.terminal, s, t⟩ n = ⟨.terminal, s, t⟩ := by
  induction n with
  | zero => rfl
  | succ n ih => rw [workflow_run_succ]; exact ih

/-! ## Node bookkeeping lemmas -/

/-- `_initialize` does not touch the decision, iteration counter or budget. -/
theorem init_node_preserves (s : LowCodeWorkflowState) :
    (init_node s).reward_decision = s.reward_decision ∧
    (init_node s).iteration_count = s.iteration_count ∧
    (init_node s).max_iterations = s.max_iterations := by
  unfold init_node
  rcases s.request <;> simp

/-- `_search_knowledge` does not touch the decision, iteration counter,
budget or errors. -/
theorem search_knowledge_node_preserves (outcome : Except String (List ImplementationSolution))
    (s : LowCodeWorkflowState) :
    (search_knowledge_node outcome s).reward_decision = s.reward_decision ∧
    (search_knowledge_node outcome s).iteration_count = s.iteration_count ∧
    (search_knowledge_node outcome s).max_iterations = s.max_iterations ∧
    (search_knowledge_node outcome s).errors = s.errors := by
  unfold search_knowledge_node
  by_cases h : (search_similar_solutions outcome).isEmpty <;> simp [h]

/-- `_develop_solution` increments the iteration counter and does not touch
the decision or budget. -/
theorem develop_solution_node_preserves (outcome : Except String ImplementationSolution)
    (s : LowCodeWorkflowState) :
    (develop_solution_node outcome s).reward_decision = s.reward_decision ∧
    (develop_solution_node outcome s).iteration_count = s.iteration_count + 1 ∧
    (develop_solution_node outcome s).max_iterations = s.max_iterations := by
  unfold develop_solution_node
  rcases outcome with e | sol
  · simp
  · by_cases hops : sol.operations.isEmpty <;> simp [hops]

/-- `_validate_solution` does not touch the decision, iteration counter or
budget. -/
theorem validate_solution_node_preserves (outcome : Except String ValidationResult)
    (s : LowCodeWorkflowState) :
    (validate_solution_node outcome s).reward_decision = s.reward_decision ∧
    (validate_solution_node outcome s).iteration_count = s.iteration_count ∧
    (validate_solution_node outcome s).max_iterations = s.max_iterations := by
  unfold validate_solution_node
  rcases s.current_solution with _ | sol
  · simp
  · rcases outcome <;> simp

/-- The review chain cannot reject while the iteration budget remains. -/
theorem review_decision_ne_rejected (vr : ValidationResult) (i m : ℕ) (hil : Bool) (th : ℚ)
    (h : i < m) : review_decision vr i m hil th ≠ .rejected := by
  unfold review_decision
  split_ifs <;> simp_all

/-- If the state entering review still has iterations left and a pending
decision, the review node cannot leave a rejected decision behind. -/
theorem review_solution_node_ne_rejected (s : LowCodeWorkflowState)
    (hd : s.reward_decision = .pending) (hi : s.iteration_count < s.max_iterations) :
    (review_solution_node s).reward_decision ≠ .rejected := by
  unfold review_solution_node
  rcases hs : s.current_solution with _ | sol <;> rcases hv : s.validation_result with _ | vr <;>
    simp [hs, hv, hd]
  exact review_decision_ne_rejected vr _ _ _ _ hi

/-- `_after_validation` never returns the (dead) retry label. -/
theorem after_validation_ne_retry (s : LowCodeWorkflowState) :
    after_validation s ≠ .retry := by
  unfold after_validation
  split_ifs <;> simp

/-- Straight out of the develop node, the router never returns retry: a
solution without operations always comes with a freshly recorded error. -/
theorem after_development_develop_ne_retry (outcome : Except String ImplementationSolution)
    (s : LowCodeWorkflowState) :
    after_development (develop_solution_node outcome s) ≠ .retry := by
  unfold develop_solution_node after_development
  rcases outcome with e | sol
  · simp
  · by_cases hops : sol.operations.isEmpty <;> simp [hops]
    split <;> simp

/-! ## Phase lemmas: termination from each node of the graph -/

/-- From `finalize`, the run is terminal after one more transition. -/
theorem run_from_finalization (o : PortBehavior) (s : LowCodeWorkflowState) (t n : ℕ) :
    (workflow_run o ⟨.finalization, s, t⟩ (n + 1)).node = .terminal := by
  rw [workflow_run_succ]
  show (workflow_run o ⟨.terminal, finalize_node s, t + 1⟩ n).node = .terminal
  rw [workflow_run_terminal]

/-- From `handle_error`, the run is terminal after two more transitions. -/
theorem run_from_handle_error (o : PortBehavior) (s : LowCodeWorkflowState) (t n : ℕ) :
    (workflow_run o ⟨.handle_error, s, t⟩ (n + 2)).node = .terminal := by
  rw [workflow_run_succ]
  exact run_from_finalization o (handle_error_node s) (t + 1) n

/-- From `update_knowledge`, the run is terminal after two more transitions. -/
theorem run_from_update (o : PortBehavior) (s : LowCodeWorkflowState) (t n : ℕ) :
    (workflow_run o ⟨.update_knowledge, s, t⟩ (n + 2)).node = .terminal := by
  rw [workflow_run_succ]
  exact run_from_finalization o (update_knowledge_node (o.storePort t) s) (t + 1) n

/-- From `review_solution`, with iterations remaining and a pending decision
inherited from initialization, the run is terminal after three more
transitions: the decision cannot be rejected, so the reject→develop edge is
not taken. -/
theorem run_from_review (o : PortBehavior) (s : LowCodeWorkflowState) (t n : ℕ)
    (hd : s.reward_decision = .pending) (hi : s.iteration_count < s.max_iterations) :
    (workflow_run o ⟨.review_solution, s, t⟩ (n + 3)).node = .terminal := by
  have hne : (review_solution_node s).reward_decision ≠ .rejected :=
    review_solution_node_ne_rejected s hd hi
  rcases hd2 : (review_solution_node s).reward_decision with _ | _ | _
  · have hstep : workflow_step o ⟨.review_solution, s, t⟩ =
        ⟨.update_knowledge, review_solution_node s, t + 1⟩ := by
      simp [workflow_step, after_review, hd2]
    rw [workflow_run_succ, hstep]
    exact run_from_update o _ _ n
  · exact absurd hd2 hne
  · have hstep : workflow_step o ⟨.review_solution, s, t⟩ =
        ⟨.finalization, review_solution_node s, t + 1⟩ := by
      simp [workflow_step, after_review, hd2]
    rw [workflow_run_succ, hstep]
    exact run_from_finalization o _ _ (n + 1)

/-- From `validate_solution`, with iterations remaining and a pending
decision, the run is terminal after four more transitions. -/
theorem run_from_validate (o : PortBehavior) (s : LowCodeWorkflowState) (t n : ℕ)
    (hd : s.reward_decision = .pending) (hi : s.iteration_count < s.max_iterations) :
    (workflow_run o ⟨.validate_solution, s, t⟩ (n + 4)).node = .terminal := by
  have hpres := validate_solution_node_preserves (o.validatePort t) s
  rcases hroute : after_validation (validate_solution_node (o.validatePort t) s) with _ | _ | _
  · have hstep : workflow_step o ⟨.validate_solution, s, t⟩ =
        ⟨.review_solution, validate_solution_node (o.validatePort t) s, t + 1⟩ := by
      simp [workflow_step, hroute]
    rw [workflow_run_succ, hstep]
    exact run_from_review o _ _ n (hpres.1.trans hd) (by rw [hpres.2.1, hpres.2.2]; exact hi)
  · exact absurd hroute (after_validation_ne_retry _)
  · have hstep : workflow_step o ⟨.validate_solution, s, t⟩ =
        ⟨.handle_error, validate_solution_node (o.validatePort t) s, t + 1⟩ := by
      simp [workflow_step, hroute]
    rw [workflow_run_succ, hstep]
    exact run_from_handle_error o _ _ (n + 1)

/-- From `develop_solution`, with at least one more iteration available after
the increment and a pending decision, the run is terminal after five more
transitions: the retry edge is dead and the rejected decision unreachable. -/
theorem run_from_develop (o : PortBehavior) (s : LowCodeWorkflowState) (t n : ℕ)
    (hd : s.reward_decision = .pending) (hi : s.iteration_count + 1 < s.max_iterations) :
    (workflow_run o ⟨.develop_solution, s, t⟩ (n + 5)).node = .terminal := by
  have hpres := develop_solution_node_preserves (o.developPort t) s
  rcases hroute : after_development (develop_solution_node (o.developPort t) s) with _ | _ | _
  · have hstep : workflow_step o ⟨.develop_solution, s, t⟩ =
        ⟨.validate_solution, develop_solution_node (o.developPort t) s, t + 1⟩ := by
      simp [workflow_step, hroute]
    rw [workflow_run_succ, hstep]
    exact run_from_validate o _ _ n (hpres.1.trans hd) (by rw [hpres.2.1, hpres.2.2]; exact hi)
  · have hstep : workflow_step o ⟨.develop_solution, s, t⟩ =
        ⟨.handle_error, develop_solution_node (o.developPort t) s, t + 1⟩ := by
      simp [workflow_step, hroute]
    rw [workflow_run_succ, hstep]
    exact run_from_handle_error o _ _ (n + 2)
  · exact absurd hroute (after_development_develop_ne_retry _ _)

/-- From `search_knowledge`, the run is terminal after six more transitions. -/
theorem run_from_search (o : PortBehavior) (s : LowCodeWorkflowState) (t n : ℕ)
    (hd : s.reward_decision = .pending) (hi : s.iteration_count + 1 < s.max_iterations) :
    (workflow_run o ⟨.search_knowledge, s, t⟩ (n + 6)).node = .terminal := by
  have hpres := search_knowledge_node_preserves (o.searchPort t) s
  rw [workflow_run_succ]
  show (workflow_run o ⟨.develop_solution, search_knowledge_node (o.searchPort t) s, t + 1⟩
      (n + 5)).node = .terminal
  exact run_from_develop o _ _ n (hpres.1.trans hd)
    (by rw [hpres.2.1, hpres.2.2.1]; exact hi)

/-- From the entry node, the run is terminal after seven more transitions. -/
theorem run_from_entry (o : PortBehavior) (s : LowCodeWorkflowState) (t n : ℕ)
    (hd : s.reward_decision = .pending) (hi : s.iteration_count + 1 < s.max_iterations) :
    (workflow_run o ⟨.initialization, s, t⟩ (n + 7)).node = .terminal := by
  have hpres := init_node_preserves s
  rw [workflow_run_succ]
  show (workflow_run o ⟨.search_knowledge, init_node s, t + 1⟩ (n + 6)).node = .terminal
  exact run_from_search o _ _ n (hpres.1.trans hd) (by rw [hpres.2.1, hpres.2.2]; exact hi)

/-! ## Claims -/

/-- C1: the review step is a pure decision function over
(validation_result, iteration_count, human_in_loop, thresholds): for every
state with a solution and a validation result (and an auto-accept threshold
at or above 0.70, which holds for the default 0.90), a valid result scoring
at or above the threshold is accepted regardless of human_in_loop; a valid
result with 0.70 ≤ score < threshold is pending when human_in_loop and
accepted otherwise; a score below 0.70 or an invalid result is pending while
iteration_count < max_iterations and rejected otherwise. -/
theorem claim_C1_review_decision (s : LowCodeWorkflowState) (sol : ImplementationSolution)
    (vr : ValidationResult) (hsol : s.current_solution = some sol)
    (hvr : s.validation_result = some vr) (hth : 7/10 ≤ s.auto_accept_threshold) :
    (vr.is_valid = true ∧ s.auto_accept_threshold ≤ vr.score →
      (review_solution_node s).reward_decision = .accepted) ∧
    (vr.is_valid = true ∧ 7/10 ≤ vr.score ∧ vr.score < s.auto_accept_threshold →
      (review_solution_node s).reward_decision =
        (if s.human_in_loop then .pending else .accepted)) ∧
    (vr.score < 7/10 ∨ vr.is_valid = false →
      (review_solution_node s).reward_decision =
        (if s.iteration_count < s.max_iterations then .pending else .rejected)) := by
  unfold review_solution_node
  simp only [hsol, hvr]
  unfold review_decision
  refine ⟨fun h => ?_, fun h => ?_, fun h => ?_⟩
  · simp [h.1, h.2]
  · rcases h with ⟨hv, h7, hlt⟩
    simp only [hv, true_and]
    rw [if_neg (by exact not_le.mpr hlt), if_pos h7]
  · have h1 : ¬ (vr.is_valid = true ∧ s.auto_accept_threshold ≤ vr.score) := by
      rcases h with h | h
      · rintro ⟨-, hge⟩
        exact absurd (le_trans hth hge) (not_le.mpr h)
      · rintro ⟨hv, -⟩
        rw [h] at hv
        exact Bool.false_ne_true hv
    have h2 : ¬ (vr.is_valid = true ∧ 7/10 ≤ vr.score) := by
      rcases h with h | h
      · rintro ⟨-, hge⟩
        exact absurd hge (not_le.mpr h)
      · rintro ⟨hv, -⟩
        rw [h] at hv
        exact Bool.false_ne_true hv
    rw [if_neg h1, if_neg h2]

/-- C1 witness: the theorem applied to a concrete review state (valid result
scoring 0.75 under the default 0.90 threshold, human-in-the-loop on). -/
theorem claim_C1_review_decision_witness :
    (vrValidMid.is_valid = true ∧ stateC1.auto_accept_threshold ≤ vrValidMid.score →
      (review_solution_node stateC1).reward_decision = .accepted) ∧
    (vrValidMid.is_valid = true ∧ 7/10 ≤ vrValidMid.score ∧
        vrValidMid.score < stateC1.auto_accept_threshold →
      (review_solution_node stateC1).reward_decision =
        (if stateC1.human_in_loop then .pending else .accepted)) ∧
    (vrValidMid.score < 7/10 ∨ vrValidMid.is_valid = false →
      (review_solution_node stateC1).reward_decision =
        (if stateC1.iteration_count < stateC1.max_iterations then .pending else .rejected)) :=
  claim_C1_review_decision stateC1 solWithOp vrValidMid rfl rfl (by norm_num [stateC1])

/-- C2: for every request and every behavior of the external ports (including
ports that always fail), the orchestrator is terminal within
`max_iterations × (max_errors_dev + max_errors_val)` = 3 × (5 + 3) = 24
transitions of the compiled graph, and stays terminal thereafter — no
execution of the state machine runs indefinitely, and in particular the
review→reject→develop cycle cannot repeat forever. -/
theorem claim_C2_termination (o : PortBehavior) (request : DevelopmentRequest)
    (human_in_loop : Bool) :
    (workflow_run o (initial_config request human_in_loop) workflow_transition_bound).node =
      .terminal ∧
    ∀ m, (workflow_run o (initial_config request human_in_loop)
        (workflow_transition_bound + m)).node = .terminal := by
  constructor
  · show (workflow_run o ⟨.initialization, _, 0⟩ (17 + 7)).node = .terminal
    exact run_from_entry o _ 0 17 rfl (by norm_num)
  · intro m
    have h : workflow_transition_bound + m = (17 + m) + 7 := by
      simp [workflow_transition_bound, max_iterations_default, developer_max_errors,
        validator_max_errors]
      omega
    rw [h]
    exact run_from_entry o _ 0 (17 + m) rfl (by norm_num)

/-- C3 counterexample: a concrete review state whose validation result is
invalid (score 0) with iterations remaining (1 < 3); the review step yields a
pending decision, yet the next node entered is `finalize`, not `develop` —
refuting the claim that such a pending decision triggers another development
iteration. -/
theorem claim_C3_counterexample :
    vrInvalidLow.is_valid = false ∧
    stateC3.validation_result = some vrInvalidLow ∧
    stateC3.iteration_count < stateC3.max_iterations ∧
    (review_solution_node stateC3).reward_decision = .pending ∧
    (workflow_step failAllOracle ⟨.review_solution, stateC3, 0⟩).node = .finalization ∧
    (workflow_step failAllOracle ⟨.review_solution, stateC3, 0⟩).node ≠ .develop_solution := by
  decide

/-- C3 (amended): after the review step, every pending decision — including
one chosen because the score is below 0.7 or the result invalid while
iterations remain — routes directly to `finalize`, skipping the knowledge
update and not entering `develop`; it is a rejected decision (reachable only
once the iteration budget is exhausted) that routes back to `develop`. -/
theorem claim_C3_after_review (o : PortBehavior) (s : LowCodeWorkflowState) (t : ℕ) :
    ((review_solution_node s).reward_decision = .pending →
      (workflow_step o ⟨.review_solution, s, t⟩).node = .finalization ∧
      (workflow_step o ⟨.review_solution, s, t⟩).node ≠ .update_knowledge ∧
      (workflow_step o ⟨.review_solution, s, t⟩).node ≠ .develop_solution) ∧
    ((review_solution_node s).reward_decision = .rejected →
      (workflow_step o ⟨.review_solution, s, t⟩).node = .develop_solution) := by
  constructor <;> intro h <;> simp [workflow_step, after_review, h]

/-- C3 witness: the amended theorem applied to the concrete low-score review
state. -/
theorem claim_C3_after_review_witness :
    (workflow_step failAllOracle ⟨.review_solution, stateC3, 0⟩).node = .finalization :=
  ((claim_C3_after_review failAllOracle stateC3 0).1 (by decide)).1

/-- Appending one transition at the end of a run. -/
theorem workflow_run_succ_apply (o : PortBehavior) (c : WorkflowConfig) (n : ℕ) :
    workflow_run o c (n + 1) = workflow_step o (workflow_run o c n) :=
  (workflow_run_add o c n 1).trans rfl

/-- C7: for every request and every behavior of the external ports, `execute`
returns an `ImplementationSolution` (it is a total function — no exception
reaches the caller): a residual failure `e` caught by its outer handler
yields a rejected solution whose description carries the failure reason, and
a run producing no solution at all yields a rejected failure solution. -/
theorem claim_C7_execute_no_raise (o : PortBehavior) (request : DevelopmentRequest)
    (hil : Bool) :
    (∀ e : String,
      (execute o request hil (some e)).reward_decision = .rejected ∧
      (execute o request hil (some e)).description = some ("工作流执行异常: " ++ e)) ∧
    ((workflow_run o (initial_config request hil) workflow_transition_bound).state.final_solution
        = none →
     (workflow_run o (initial_config request hil) workflow_transition_bound).state.current_solution
        = none →
      (execute o request hil none).reward_decision = .rejected ∧
      (execute o request hil none).description = some "工作流执行失败") := by
  constructor
  · intro e
    exact ⟨rfl, rfl⟩
  · intro h1 h2
    unfold execute
    simp [h1, h2]

/-- C7 witness: the theorem applied to the all-ports-failing behavior, where
the run records a development error and produces no solution. -/
theorem claim_C7_execute_no_raise_witness :
    (execute failAllOracle reqW true (some "网络超时")).reward_decision = .rejected ∧
    (execute failAllOracle reqW true (some "网络超时")).description =
      some ("工作流执行异常: " ++ "网络超时") ∧
    (execute failAllOracle reqW true none).reward_decision = .rejected ∧
    (execute failAllOracle reqW true none).description = some "工作流执行失败" := by
  obtain ⟨ha, hb⟩ := claim_C7_execute_no_raise failAllOracle reqW true
  obtain ⟨hc, hd⟩ := hb (by decide) (by decide)
  exact ⟨(ha "网络超时").1, (ha "网络超时").2, hc, hd⟩

/-- C8 counterexample: under a behavior whose knowledge search fails, after
the `search_knowledge` step the workflow state records no warning at all
(and no error): the failure is not "recorded as a warning" as claimed — the
knowledge manager swallows it and the state is left untouched apart from the
empty search result. -/
theorem claim_C8_counterexample :
    searchFailOracle.searchPort 1 = .error "数据库连接失败" ∧
    (workflow_run searchFailOracle (initial_config reqW true) 2).state.warnings = [] ∧
    (workflow_run searchFailOracle (initial_config reqW true) 2).state.similar_solutions = [] ∧
    (workflow_run searchFailOracle (initial_config reqW true) 2).state.errors = [] ∧
    (workflow_run searchFailOracle (initial_config reqW true) 2).node = .develop_solution := by
  refine ⟨rfl, ?_, ?_, ?_, ?_⟩ <;> decide

/-- C8 (amended): a failing knowledge search is non-fatal but silent: the
knowledge manager returns the empty list, nothing is appended to the state's
warnings or errors, the workflow proceeds into development with the empty
search result, and — when development then yields a solution with operations
and validation returns a result — the run never enters `handle_error`. -/
theorem claim_C8_search_failure (o : PortBehavior) (req : DevelopmentRequest) (hil : Bool)
    (e : String) (sol : ImplementationSolution) (vr : ValidationResult)
    (hs : o.searchPort 1 = .error e)
    (hd : o.developPort 2 = .ok sol)
    (hops : sol.operations.isEmpty = false)
    (hv : o.validatePort 3 = .ok vr) :
    ((workflow_run o (initial_config req hil) 2).node = .develop_solution ∧
     (workflow_run o (initial_config req hil) 2).state.similar_solutions = [] ∧
     (workflow_run o (initial_config req hil) 2).state.errors = [] ∧
     (workflow_run o (initial_config req hil) 2).state.warnings = []) ∧
    (∀ k, (workflow_run o (initial_config req hil) k).node ≠ .handle_error) := by
  have h1 : workflow_run o (initial_config req hil) 1 =
      ⟨.search_knowledge, { request := some req, human_in_loop := hil }, 1⟩ := rfl
  have h2 : workflow_run o (initial_config req hil) 2 =
      ⟨.develop_solution,
        { request := some req, current_stage := .knowledge_search, human_in_loop := hil }, 2⟩ := by
    rw [workflow_run_succ_apply, h1]
    simp [workflow_step, search_knowledge_node, search_similar_solutions, hs]
  have h3 : workflow_run o (initial_config req hil) 3 =
      ⟨.validate_solution,
        { request := some req, current_stage := .development, iteration_count := 1,
          current_solution := some sol, human_in_loop := hil }, 3⟩ := by
    rw [workflow_run_succ_apply, h2]
    simp [workflow_step, develop_solution_node, hd, after_development, hops]
  have h4 : workflow_run o (initial_config req hil) 4 =
      ⟨.review_solution, stateAfterValidate req hil sol vr, 4⟩ := by
    rw [workflow_run_succ_apply, h3]
    simp [workflow_step, validate_solution_node, hv, after_validation, stateAfterValidate]
  refine ⟨by rw [h2]; exact ⟨rfl, rfl, rfl, rfl⟩, ?_⟩
  intro k
  have hpend : (stateAfterValidate req hil sol vr).reward_decision = .pending := rfl
  have hiter : (stateAfterValidate req hil sol vr).iteration_count <
      (stateAfterValidate req hil sol vr).max_iterations := by
    simp [stateAfterValidate]
  obtain hk | hk := Nat.lt_or_ge k 5
  · interval_cases k
    · simp [workflow_run, initial_config]
    · rw [h1]; simp
    · rw [h2]; simp
    · rw [h3]; simp
    · rw [h4]; simp
  · obtain ⟨n, rfl⟩ := Nat.exists_eq_add_of_le hk
    by_cases hn : n < 3
    · have hne := review_solution_node_ne_rejected (stateAfterValidate req hil sol vr) hpend hiter
      have h5 : workflow_run o (initial_config req hil) 5 =
          workflow_step o ⟨.review_solution, stateAfterValidate req hil sol vr, 4⟩ := by
        rw [workflow_run_succ_apply, h4]
      rcases hdec : (review_solution_node (stateAfterValidate req hil sol vr)).reward_decision
        with _ | _ | _
      · -- accepted: review → update_knowledge → finalization → terminal
        have h5' : workflow_run o (initial_config req hil) 5 =
            ⟨.update_knowledge, review_solution_node (stateAfterValidate req hil sol vr), 5⟩ := by
          rw [h5]; simp [workflow_step, after_review, hdec]
        interval_cases n
        · rw [h5']; simp
        · rw [show (5:ℕ) + 1 = 5 + 1 from rfl, workflow_run_succ_apply, h5']
          simp [workflow_step]
        · rw [show (5:ℕ) + 2 = (5 + 1) + 1 from rfl, workflow_run_succ_apply,
            workflow_run_succ_apply, h5']
          simp [workflow_step]
      · exact absurd hdec hne
      · -- pending: review → finalization → terminal
        have h5' : workflow_run o (initial_config req hil) 5 =
            ⟨.finalization, review_solution_node (stateAfterValidate req hil sol vr), 5⟩ := by
          rw [h5]; simp [workflow_step, after_review, hdec]
        interval_cases n
        · rw [h5']; simp
        · rw [show (5:ℕ) + 1 = 5 + 1 from rfl, workflow_run_succ_apply, h5']
          simp [workflow_step]
        · rw [show (5:ℕ) + 2 = (5 + 1) + 1 from rfl, workflow_run_succ_apply,
            workflow_run_succ_apply, h5']
          simp [workflow_step]
    · have hterm : (workflow_run o (initial_config req hil) (5 + n)).node = .terminal := by
        have harith : 5 + n = 4 + ((n - 2) + 3) := by omega
        rw [harith, workflow_run_add, h4]
        exact run_from_review o _ 4 (n - 2) hpend hiter
      rw [hterm]
      simp

/-- C8 witness: the amended theorem applied to the concrete failing-search
behavior. -/
theorem claim_C8_search_failure_witness :
    ((workflow_run searchFailOracle (initial_config reqW true) 2).node = .develop_solution ∧
     (workflow_run searchFailOracle (initial_config reqW true) 2).state.similar_solutions = [] ∧
     (workflow_run searchFailOracle (initial_config reqW true) 2).state.errors = [] ∧
     (workflow_run searchFailOracle (initial_config reqW true) 2).state.warnings = []) ∧
    (∀ k, (workflow_run searchFailOracle (initial_config reqW true) k).node ≠ .handle_error) :=
  claim_C8_search_failure searchFailOracle reqW true "数据库连接失败" solWithOp vrValidMid
    rfl rfl (by decide) rfl

/-- C4: after the developer's `finalize_solution` step the solution's
success_rate equals (operations with success = true) / (total operations),
or 0 with no operations; the decision is accepted when the validation result
is valid and success_rate ≥ 0.8, pending when valid below that, and rejected
otherwise (including when no validation result exists); and the concrete
scenario — two successful operations, a valid result scoring 0.85 — ends
with success_rate 1 and decision accepted. -/
theorem claim_C4_finalize_solution (sol : ImplementationSolution) :
    (sol.operations = [] → (finalize_solution sol).success_rate = 0) ∧
    (sol.operations ≠ [] →
      (finalize_solution sol).success_rate =
        ((sol.operations.filter (fun op => op.success = some true)).length : ℚ) /
          (sol.operations.length : ℚ)) ∧
    (∀ vr, sol.validation_result = some vr →
      (vr.is_valid = true → 8/10 ≤ (finalize_solution sol).success_rate →
        (finalize_solution sol).reward_decision = .accepted) ∧
      (vr.is_valid = true → (finalize_solution sol).success_rate < 8/10 →
        (finalize_solution sol).reward_decision = .pending) ∧
      (vr.is_valid = false → (finalize_solution sol).reward_decision = .rejected)) ∧
    (sol.validation_result = none → (finalize_solution sol).reward_decision = .rejected) ∧
    ((finalize_solution solScenarioC4).success_rate = 1 ∧
     (finalize_solution solScenarioC4).reward_decision = .accepted) := by
  have hflen : (solScenarioC4.operations.filter (fun op => op.success = some true)).length = 2 := by
    decide
  have hlen : solScenarioC4.operations.length = 2 := by decide
  have hvr4 : solScenarioC4.validation_result = some { is_valid := true, score := 17/20 } := rfl
  have hsr : (finalize_solution solScenarioC4).success_rate = 1 := by
    simp [finalize_solution, hflen, hlen]
  have hdec : (finalize_solution solScenarioC4).reward_decision = .accepted := by
    simp [finalize_solution, hvr4, hflen, hlen]
    norm_num
  refine ⟨?_, ?_, ?_, ?_, hsr, hdec⟩
  · intro h
    simp [finalize_solution, h]
  · intro h
    have hlen : 0 < sol.operations.length := List.length_pos.mpr h
    simp [finalize_solution, hlen]
  · intro vr hvr
    refine ⟨fun hv h8 => ?_, fun hv h8 => ?_, fun hv => ?_⟩
    · have h8' : 8/10 ≤ (if 0 < sol.operations.length then
          ((sol.operations.filter (fun op => op.success = some true)).length : ℚ) /
            (sol.operations.length : ℚ) else 0) := by
        simpa [finalize_solution] using h8
      simp [finalize_solution, hvr, hv, if_pos h8']
    · have h8' : ¬ 8/10 ≤ (if 0 < sol.operations.length then
          ((sol.operations.filter (fun op => op.success = some true)).length : ℚ) /
            (sol.operations.length : ℚ) else 0) := by
        have := not_le.mpr h8
        simpa [finalize_solution] using this
      simp [finalize_solution, hvr, hv, if_neg h8']
    · simp [finalize_solution, hvr, hv]
  · intro h
    simp [finalize_solution, h]

/-- C4 witness: the theorem applied to the scenario solution; the accepted
branch is reached with success_rate 1 ≥ 0.8. -/
theorem claim_C4_finalize_solution_witness :
    (finalize_solution solScenarioC4).reward_decision = .accepted ∧
    (finalize_solution solScenarioC4).success_rate = 1 :=
  ⟨((claim_C4_finalize_solution solScenarioC4).2.2.1 { is_valid := true, score := 17/20 }
      rfl).1 rfl (by rw [(claim_C4_finalize_solution solScenarioC4).2.2.2.2.1]; norm_num),
   (claim_C4_finalize_solution solScenarioC4).2.2.2.2.1⟩

/-- Jaccard similarity is nonnegative. -/
theorem text_similarity_nonneg (t1 t2 : String) : 0 ≤ text_similarity t1 t2 := by
  unfold text_similarity
  dsimp only
  split
  · exact le_refl 0
  · positivity

/-- Jaccard similarity is at most one. -/
theorem text_similarity_le_one (t1 t2 : String) : text_similarity t1 t2 ≤ 1 := by
  unfold text_similarity
  dsimp only
  split
  · norm_num
  · next h =>
    have hsub : pyWordSet t1 ∩ pyWordSet t2 ⊆ pyWordSet t1 ∪ pyWordSet t2 :=
      Finset.inter_subset_left.trans Finset.subset_union_left
    have hcard := Finset.card_le_card hsub
    have hpos : 0 < ((pyWordSet t1 ∪ pyWordSet t2).card : ℚ) := by
      exact_mod_cast Nat.pos_of_ne_zero h
    rw [div_le_one hpos]
    exact_mod_cast hcard

/-- Jaccard similarity is zero on disjoint word sets. -/
theorem text_similarity_empty_inter (t1 t2 : String)
    (h : pyWordSet t1 ∩ pyWordSet t2 = ∅) : text_similarity t1 t2 = 0 := by
  simp [text_similarity, h]

/-- Filtering on one similarity value commutes with an ordered insert: the
elements skipped by the insertion all have a strictly larger score. -/
theorem filter_orderedInsert_similarity (request : DevelopmentRequest) (q : ℚ)
    (a : ImplementationSolution) (l : List ImplementationSolution) :
    (List.orderedInsert (similarityRel request) a l).filter
        (fun s => decide (calculate_similarity request s = q)) =
      if calculate_similarity request a = q then
        a :: l.filter (fun s => decide (calculate_similarity request s = q))
      else l.filter (fun s => decide (calculate_similarity request s = q)) := by
  induction l with
  | nil =>
      by_cases hpa : calculate_similarity request a = q <;>
        simp [List.orderedInsert, hpa]
  | cons b l ih =>
      by_cases hab : similarityRel request a b
      · rw [List.orderedInsert, if_pos hab]
        by_cases hpa : calculate_similarity request a = q <;>
          by_cases hpb : calculate_similarity request b = q <;>
            simp [List.filter_cons, hpa, hpb]
      · have hlt : calculate_similarity request a < calculate_similarity request b :=
          not_le.mp hab
        rw [List.orderedInsert, if_neg hab]
        by_cases hpa : calculate_similarity request a = q
        · have hpb : ¬ calculate_similarity request b = q := by
            rw [← hpa]
            exact ne_of_gt hlt
          simp [List.filter_cons, hpa, hpb, ih]
        · by_cases hpb : calculate_similarity request b = q <;>
            simp [List.filter_cons, hpa, hpb, ih]

/-- The ranking sort is stable: the candidates carrying any given similarity
score appear in the ranked list in their original Store return order. -/
theorem filter_insertionSort_similarity (request : DevelopmentRequest) (q : ℚ)
    (l : List ImplementationSolution) :
    (List.insertionSort (similarityRel request) l).filter
        (fun s => decide (calculate_similarity request s = q)) =
      l.filter (fun s => decide (calculate_similarity request s = q)) := by
  induction l with
  | nil => rfl
  | cons a l ih =>
      rw [List.insertionSort, filter_orderedInsert_similarity, ih]
      by_cases hpa : calculate_similarity request a = q <;> simp [List.filter_cons, hpa]

/-- C5 counterexample: for the request titled "Invoice Form" against the
candidate titled "Invoice Management Form" with no shared description tokens
and success rate 0.5, the title Jaccard is 2/3 (the token-set union
{invoice, management, form} has 3 elements, not 4) and the similarity is
0.6 × (2/3) × 0.5 = 0.2 — not 0.6 × (2/4) × 0.5 = 0.15 as claimed. -/
theorem claim_C5_counterexample :
    text_similarity reqC5.title solC5.title = 2/3 ∧
    text_similarity reqC5.title solC5.title ≠ 1/2 ∧
    calculate_similarity reqC5 solC5 = 1/5 ∧
    calculate_similarity reqC5 solC5 ≠ 3/20 := by
  have hc1 : (pyWordSet reqC5.title ∩ pyWordSet solC5.title).card = 2 := by decide
  have hc2 : (pyWordSet reqC5.title ∪ pyWordSet solC5.title).card = 3 := by decide
  have ht : text_similarity reqC5.title solC5.title = 2/3 := by
    simp [text_similarity, hc1, hc2]
  have hdis : pyWordSet reqC5.description ∩ pyWordSet "manage invoices end to end" = ∅ := by
    decide
  have hd : text_similarity reqC5.description "manage invoices end to end" = 0 :=
    text_similarity_empty_inter _ _ hdis
  have hdesc : solC5.description = some "manage invoices end to end" := rfl
  have hsr : solC5.success_rate = 1/2 := rfl
  have hcalc : calculate_similarity reqC5 solC5 = 1/5 := by
    simp only [calculate_similarity, hdesc, ht, hd, hsr]
    norm_num
  exact ⟨ht, by rw [ht]; norm_num, hcalc, by rw [hcalc]; norm_num⟩

/-- C5 (amended): the similarity score equals
`(0.6·title_jaccard + 0.4·description_jaccard) × success_rate` over
lower-cased whitespace-tokenized word sets; it lies in `[0, success_rate]`,
is 0 when title and description share no tokens, equals
`0.6 × (2/3) × 0.5 = 0.2` on the "Invoice Form" / "Invoice Management Form"
scenario (title Jaccard 2/3, not 2/4), and ranking sorts candidates by this
score descending, stably, so ties keep the Store return order. -/
theorem claim_C5_similarity (request : DevelopmentRequest) (sol : ImplementationSolution)
    (l : List ImplementationSolution) (q : ℚ)
    (h0 : 0 ≤ sol.success_rate) :
    (0 ≤ calculate_similarity request sol ∧
     calculate_similarity request sol ≤ sol.success_rate) ∧
    (pyWordSet request.title ∩ pyWordSet sol.title = ∅ →
     (∀ d, sol.description = some d → pyWordSet request.description ∩ pyWordSet d = ∅) →
      calculate_similarity request sol = 0) ∧
    (text_similarity reqC5.title solC5.title = 2/3 ∧
     calculate_similarity reqC5 solC5 = 1/5) ∧
    (List.Sorted (similarityRel request) (rank_solutions_by_similarity request l) ∧
     (rank_solutions_by_similarity request l).Perm l ∧
     (rank_solutions_by_similarity request l).filter
         (fun s => decide (calculate_similarity request s = q)) =
       l.filter (fun s => decide (calculate_similarity request s = q))) := by
  have hta0 := text_similarity_nonneg request.title sol.title
  have hta1 := text_similarity_le_one request.title sol.title
  refine ⟨?_, ?_, ⟨?_, ?_⟩, ?_, ?_, ?_⟩
  · rcases hdesc : sol.description with _ | d
    · simp only [calculate_similarity, hdesc]
      constructor
      · have hw : 0 ≤ text_similarity request.title sol.title * (6/10) + 0 * (4/10) := by
          linarith
        exact mul_nonneg hw h0
      · have hw : text_similarity request.title sol.title * (6/10) + 0 * (4/10) ≤ 1 := by
          linarith
        calc (text_similarity request.title sol.title * (6/10) + 0 * (4/10)) *
              sol.success_rate
            ≤ 1 * sol.success_rate := mul_le_mul_of_nonneg_right hw h0
          _ = sol.success_rate := one_mul _
    · have htb0 := text_similarity_nonneg request.description d
      have htb1 := text_similarity_le_one request.description d
      simp only [calculate_similarity, hdesc]
      constructor
      · have hw : 0 ≤ text_similarity request.title sol.title * (6/10) +
            text_similarity request.description d * (4/10) := by linarith
        exact mul_nonneg hw h0
      · have hw : text_similarity request.title sol.title * (6/10) +
            text_similarity request.description d * (4/10) ≤ 1 := by linarith
        calc (text_similarity request.title sol.title * (6/10) +
              text_similarity request.description d * (4/10)) * sol.success_rate
            ≤ 1 * sol.success_rate := mul_le_mul_of_nonneg_right hw h0
          _ = sol.success_rate := one_mul _
  · intro htitle hdescs
    have hta : text_similarity request.title sol.title = 0 :=
      text_similarity_empty_inter _ _ htitle
    rcases hdesc : sol.description with _ | d
    · simp [calculate_similarity, hdesc, hta]
    · have htb : text_similarity request.description d = 0 :=
        text_similarity_empty_inter _ _ (hdescs d hdesc)
      simp [calculate_similarity, hdesc, hta, htb]
  · have hc1 : (pyWordSet reqC5.title ∩ pyWordSet solC5.title).card = 2 := by decide
    have hc2 : (pyWordSet reqC5.title ∪ pyWordSet solC5.title).card = 3 := by decide
    simp [text_similarity, hc1, hc2]
  · have hc1 : (pyWordSet reqC5.title ∩ pyWordSet solC5.title).card = 2 := by decide
    have hc2 : (pyWordSet reqC5.title ∪ pyWordSet solC5.title).card = 3 := by decide
    have ht : text_similarity reqC5.title solC5.title = 2/3 := by
      simp [text_similarity, hc1, hc2]
    have hdis : pyWordSet reqC5.description ∩ pyWordSet "manage invoices end to end" = ∅ := by
      decide
    have hd : text_similarity reqC5.description "manage invoices end to end" = 0 :=
      text_similarity_empty_inter _ _ hdis
    have hdesc : solC5.description = some "manage invoices end to end" := rfl
    have hsr : solC5.success_rate = 1/2 := rfl
    simp only [calculate_similarity, hdesc, ht, hd, hsr]
    norm_num
  · exact List.sorted_insertionSort (similarityRel request) l
  · exact List.perm_insertionSort (similarityRel request) l
  · exact filter_insertionSort_similarity request q l

/-- C5 witness: the amended theorem applied to the scenario request and
candidate, a two-element candidate list and the score value 0. -/
theorem claim_C5_similarity_witness :
    (0 ≤ calculate_similarity reqC5 solC5 ∧
     calculate_similarity reqC5 solC5 ≤ solC5.success_rate) ∧
    (pyWordSet reqC5.title ∩ pyWordSet solC5.title = ∅ →
     (∀ d, solC5.description = some d → pyWordSet reqC5.description ∩ pyWordSet d = ∅) →
      calculate_similarity reqC5 solC5 = 0) ∧
    (text_similarity reqC5.title solC5.title = 2/3 ∧
     calculate_similarity reqC5 solC5 = 1/5) ∧
    (List.Sorted (similarityRel reqC5) (rank_solutions_by_similarity reqC5 [solC5, solWithOp]) ∧
     (rank_solutions_by_similarity reqC5 [solC5, solWithOp]).Perm [solC5, solWithOp] ∧
     (rank_solutions_by_similarity reqC5 [solC5, solWithOp]).filter
         (fun s => decide (calculate_similarity reqC5 s = 0)) =
       [solC5, solWithOp].filter (fun s => decide (calculate_similarity reqC5 s = 0))) :=
  claim_C5_similarity reqC5 solC5 [solC5, solWithOp] 0 (by norm_num [solC5])

/-- The rejected handler's success-rate update is the clamped decrement
regardless of whether a rejection note is appended. -/
theorem handle_rejected_solution_success_rate (sol : ImplementationSolution) :
    (handle_rejected_solution sol).success_rate = max 0 (sol.success_rate - 1/10) := by
  unfold handle_rejected_solution
  rcases hv : sol.validation_result with _ | vr <;> simp [hv]

/-- C6: `store_solution(solution, decision)` sets success_rate to
`min(1, prior + 0.1)` on accept and `max(0, prior − 0.1)` on reject, leaves
it unchanged on pending, and always records a RewardTransaction with exactly
+100 / −50 / 0 points; hence (for a prior in [0,1], the pydantic range)
accepting never decreases success_rate, rejecting never increases it, and
the value stays in [0,1]. -/
theorem claim_C6_store_solution (sol : ImplementationSolution) (decision : RewardDecision)
    (h0 : 0 ≤ sol.success_rate) (h1 : sol.success_rate ≤ 1) :
    ((store_solution sol .accepted).1.success_rate = min 1 (sol.success_rate + 1/10)) ∧
    ((store_solution sol .rejected).1.success_rate = max 0 (sol.success_rate - 1/10)) ∧
    ((store_solution sol .pending).1.success_rate = sol.success_rate) ∧
    ((store_solution sol .accepted).2.reward_points = 100 ∧
     (store_solution sol .rejected).2.reward_points = -50 ∧
     (store_solution sol .pending).2.reward_points = 0) ∧
    (sol.success_rate ≤ (store_solution sol .accepted).1.success_rate) ∧
    ((store_solution sol .rejected).1.success_rate ≤ sol.success_rate) ∧
    (0 ≤ (store_solution sol decision).1.success_rate ∧
     (store_solution sol decision).1.success_rate ≤ 1) := by
  have hacc : (store_solution sol .accepted).1.success_rate =
      min 1 (sol.success_rate + 1/10) := by
    simp [store_solution, handle_accepted_solution]
  have hrej : (store_solution sol .rejected).1.success_rate =
      max 0 (sol.success_rate - 1/10) := by
    simp [store_solution, handle_rejected_solution_success_rate]
  have hpen : (store_solution sol .pending).1.success_rate = sol.success_rate := by
    simp [store_solution]
  refine ⟨hacc, hrej, hpen, ⟨rfl, rfl, rfl⟩, ?_, ?_, ?_⟩
  · rw [hacc]
    exact le_min h1 (by linarith)
  · rw [hrej]
    exact max_le h0 (by linarith)
  · rcases decision with _ | _ | _
    · rw [hacc]
      exact ⟨le_min (by norm_num) (by linarith), min_le_left _ _⟩
    · rw [hrej]
      exact ⟨le_max_left _ _, max_le (by norm_num) (by linarith)⟩
    · rw [hpen]
      exact ⟨h0, h1⟩

/-- C6 witness: the theorem applied to a concrete solution with success rate
0.5 and the pending decision. -/
theorem claim_C6_store_solution_witness :
    ((store_solution solC6 .accepted).1.success_rate = min 1 (solC6.success_rate + 1/10)) ∧
    ((store_solution solC6 .rejected).1.success_rate = max 0 (solC6.success_rate - 1/10)) ∧
    ((store_solution solC6 .pending).1.success_rate = solC6.success_rate) ∧
    ((store_solution solC6 .accepted).2.reward_points = 100 ∧
     (store_solution solC6 .rejected).2.reward_points = -50 ∧
     (store_solution solC6 .pending).2.reward_points = 0) ∧
    (solC6.success_rate ≤ (store_solution solC6 .accepted).1.success_rate) ∧
    ((store_solution solC6 .rejected).1.success_rate ≤ solC6.success_rate) ∧
    (0 ≤ (store_solution solC6 .pending).1.success_rate ∧
     (store_solution solC6 .pending).1.success_rate ≤ 1) :=
  claim_C6_store_solution solC6 .pending (by norm_num [solC6]) (by norm_num [solC6])

/-- C9: `cleanup_old_solutions(90)` on a store holding a rejected solution
created 100 days ago and an accepted one created 200 days ago actually
deletes nothing and returns 0 — the store methods it calls do not exist, so
its `except` swallows the `AttributeError` — although the rejected solution
is exactly what the claim (and `cleanup_intended`, which deletes precisely
the rejected-and-older solutions, keeping the old accepted one) requires it
to delete. -/
theorem claim_C9_cleanup_missing_store_methods :
    cleanup_old_solutions storeC9 nowC9 90 = (0, storeC9) ∧
    solRejectedOld ∈ storeC9 ∧
    solRejectedOld.reward_decision = .rejected ∧
    solRejectedOld.created_at < nowC9 - 90 * 86400 ∧
    "get_solutions_before_date" ∉ knowledgeStoreMethods ∧
    cleanup_intended storeC9 nowC9 90 = (1, [solAcceptedOld]) := by
  refine ⟨?_, ?_, ?_, ?_, ?_, ?_⟩ <;> decide

/-- Single-step characterisation of `add_usage` past the first use. -/
theorem add_usage_step (e : KnowledgeEntry) (b : Bool) (n : ℕ) (c : ℕ)
    (hn : e.usage_count = n) (hpos : 0 < n) (hsr : e.success_rate = (c : ℚ) / (n : ℚ)) :
    (e.add_usage b).usage_count = n + 1 ∧
    (e.add_usage b).success_rate = ((c : ℚ) + (if b then 1 else 0)) / ((n : ℚ) + 1) := by
  have hne : ¬ e.usage_count + 1 = 1 := by omega
  have hn0 : ((n : ℚ)) ≠ 0 := by exact_mod_cast Nat.pos_iff_ne_zero.mp hpos
  unfold KnowledgeEntry.add_usage
  rw [if_neg hne]
  refine ⟨by simp [hn], ?_⟩
  simp only [hn, hsr]
  have hcanc : (c : ℚ) / (n : ℚ) * ((((n : ℕ) + 1 : ℕ) : ℚ) - 1) = (c : ℚ) := by
    push_cast
    field_simp
  rcases b with _ | _ <;> simp only [if_pos, if_neg, Bool.false_eq_true, ite_true, ite_false] <;>
    rw [hcanc] <;> push_cast <;> ring_nf

/-- Running `add_usage` over a whole call sequence from a fresh entry: the
usage count is the number of calls and the success rate is the fraction of
successful calls. -/
theorem add_usage_run (e0 : KnowledgeEntry) (h : e0.usage_count = 0) (l : List Bool) :
    (l.foldl KnowledgeEntry.add_usage e0).usage_count = l.length ∧
    (l ≠ [] → (l.foldl KnowledgeEntry.add_usage e0).success_rate =
      (l.count true : ℚ) / (l.length : ℚ)) := by
  induction l using List.reverseRecOn with
  | nil => exact ⟨h, fun hne => absurd rfl hne⟩
  | append_singleton l b ih =>
      obtain ⟨ihc, ihs⟩ := ih
      have hfold : (l ++ [b]).foldl KnowledgeEntry.add_usage e0 =
          (l.foldl KnowledgeEntry.add_usage e0).add_usage b := by
        rw [List.foldl_append]
        rfl
      by_cases hl : l = []
      · subst hl
        have he : ([] ++ [b]).foldl KnowledgeEntry.add_usage e0 = e0.add_usage b := rfl
        rw [he]
        have h1 : e0.usage_count + 1 = 1 := by omega
        unfold KnowledgeEntry.add_usage
        rw [if_pos h1]
        refine ⟨by simpa using h1, fun _ => ?_⟩
        rcases b with _ | _ <;> simp
      · have hlen : 0 < l.length := List.length_pos.mpr hl
        have hstep := add_usage_step (l.foldl KnowledgeEntry.add_usage e0) b l.length
          (l.count true) ihc hlen (ihs hl)
        rw [hfold]
        refine ⟨by rw [hstep.1]; simp, fun _ => ?_⟩
        rw [hstep.2]
        rcases b with _ | _ <;> simp

/-- C10: starting from usage_count = 0, after any finite sequence of
`add_usage(success)` calls the usage_count equals the number of calls and
success_rate equals (successful calls)/(usage_count); the incremental update
keeps success_rate in [0, 1] after every prefix of the sequence (the empty
prefix keeping the entry's initial in-range value). -/
theorem claim_C10_add_usage (e0 : KnowledgeEntry) (l : List Bool)
    (huc : e0.usage_count = 0) (h0 : 0 ≤ e0.success_rate) (h1 : e0.success_rate ≤ 1) :
    (l.foldl KnowledgeEntry.add_usage e0).usage_count = l.length ∧
    (l ≠ [] → (l.foldl KnowledgeEntry.add_usage e0).success_rate =
        (l.count true : ℚ) / (l.length : ℚ)) ∧
    (∀ k, 0 ≤ ((l.take k).foldl KnowledgeEntry.add_usage e0).success_rate ∧
          ((l.take k).foldl KnowledgeEntry.add_usage e0).success_rate ≤ 1) := by
  obtain ⟨hc, hs⟩ := add_usage_run e0 huc l
  refine ⟨hc, hs, fun k => ?_⟩
  obtain ⟨hc', hs'⟩ := add_usage_run e0 huc (l.take k)
  by_cases hk : l.take k = []
  · rw [hk]
    exact ⟨h0, h1⟩
  · rw [hs' hk]
    have hlenpos : 0 < (l.take k).length := List.length_pos.mpr hk
    have hlenposq : 0 < ((l.take k).length : ℚ) := by exact_mod_cast hlenpos
    constructor
    · positivity
    · rw [div_le_one hlenposq]
      exact_mod_cast List.count_le_length true (l.take k)

/-- C10 witness: the theorem applied to a fresh entry and the concrete
sequence success, failure, success. -/
theorem claim_C10_add_usage_witness :
    (usageSeqC10.foldl KnowledgeEntry.add_usage entryC10).usage_count = usageSeqC10.length ∧
    (usageSeqC10 ≠ [] → (usageSeqC10.foldl KnowledgeEntry.add_usage entryC10).success_rate =
        (usageSeqC10.count true : ℚ) / (usageSeqC10.length : ℚ)) ∧
    (∀ k, 0 ≤ ((usageSeqC10.take k).foldl KnowledgeEntry.add_usage entryC10).success_rate ∧
          ((usageSeqC10.take k).foldl KnowledgeEntry.add_usage entryC10).success_rate ≤ 1) :=
  claim_C10_add_usage entryC10 usageSeqC10 rfl (by norm_num [entryC10]) (by norm_num [entryC10])
